import Mathlib

/-!
# Verification of the Video-diary persistence subsystem

Shallow embedding, in Lean, of the persistence-related code of the
Video-diary repository:

* `FileManager.cleanupCache` and the add-video flow (src/hooks/useVideos.ts,
  file-manager part),
* the trim-window metadata machinery: `processVideo` / `getMetadata`
  (src/hooks/useVideos.ts, video-processor part), `videoService`
  (src/services/videoService.ts), the CropModal save path
  (src/unnamed/part_005) and the add screen (src/app/(tabs)/add.tsx),
  and the read path of `VideoPlayer` (src/components/VideoPlayer.tsx),
* the SQLite repository `DatabaseService` (src/services/database.ts) and the
  store-level orchestration (`useVideoStore` in src/stores/useLanguageStore.ts,
  video-store part).

Pure data is embedded directly; filesystem and database effects are embedded
as explicit state passing, with Bool-valued oracles standing for the
success/failure of individual I/O operations.  JavaScript exceptions are
embedded as `Except`.
-/

namespace VideoDiary

/-! ## AssetStore cache model

`FileManager` in src/hooks/useVideos.ts (file-manager part) owns the video and
thumbnail directories.  A cached file is known to `cleanupCache` only through
its size and the creation instant encoded in its file name
(`time = parseInt(name)`; the names are minted as Date.now()-prefixed).
The `fails` field is the oracle telling whether `FileSystem.deleteAsync`
throws for this file. -/

structure CacheFile where
  time : Nat
  size : Nat
  fails : Bool
deriving DecidableEq, Repr

/-- Constant `MAX_CACHE_SIZE = 500 * 1024 * 1024` from src/hooks/useVideos.ts. -/
def MAX_CACHE_SIZE : Nat := 500 * 1024 * 1024

/-- Combined size of both directories, as summed by `getCacheSize` /
the directory stats at the top of `cleanupCache`. -/
def totalSize (files : List CacheFile) : Nat := (files.map (·.size)).sum

/-- The comparator `(a, b) => a.time - b.time` used by
`fileStats.sort` in `cleanupCache`: ascending encoded creation instant. -/
def byTime (a b : CacheFile) : Prop := a.time ≤ b.time

instance : DecidableRel byTime := fun a b => Nat.decLe a.time b.time

instance : IsTotal CacheFile byTime := ⟨fun a b => Nat.le_total a.time b.time⟩

instance : IsTrans CacheFile byTime := ⟨fun _ _ _ h₁ h₂ => Nat.le_trans h₁ h₂⟩

/-- The deletion loop of `cleanupCache`:

```
let currentSize = totalSize;
for (const file of sortedFiles) {
  if (currentSize <= MAX_CACHE_SIZE) break;
  try { await FileSystem.deleteAsync(file.path); currentSize -= file.size; }
  catch (error) { console.error(...); }
}
```

Takes the (already sorted) file list and the running `currentSize`; returns
`(deleted files in deletion order, surviving files)`.  A file whose deletion
throws is skipped: it survives and its size is not subtracted. -/
def sweepGo (budget : Nat) : List CacheFile → Nat → List CacheFile × List CacheFile
  | [], _ => ([], [])
  | f :: rest, cur =>
    if cur ≤ budget then ([], f :: rest)
    else if f.fails then
      ((sweepGo budget rest cur).1, f :: (sweepGo budget rest cur).2)
    else
      (f :: (sweepGo budget rest (cur - f.size)).1,
        (sweepGo budget rest (cur - f.size)).2)

/-- Embedding of `FileManager.cleanupCache`, happy path (directory stats and listing
succeed): if the combined size is within budget nothing happens, otherwise
the files of both directories are sorted by encoded creation instant and
swept.  Returns `(deleted, survivors)`. -/
def cleanupCache (files : List CacheFile) : List CacheFile × List CacheFile :=
  if totalSize files ≤ MAX_CACHE_SIZE then ([], files)
  else sweepGo MAX_CACHE_SIZE (List.insertionSort byTime files) (totalSize files)

/-- The body of `cleanupCache` with its fallible I/O made explicit, before
the enclosing `try/catch`.  `statFail` models `getInfoAsync` failing on the
directories — but `getFileStats` catches that internally and reports
`size: 0`, so a stat failure yields a zero total, not an exception.
`listFail` models `readDirectoryAsync` throwing, which does escape to the
outer catch.  Individual deletion failures are the `fails` field and are
caught by the inner per-file `try/catch` (see `sweepGo`). -/
def cleanupCacheBody (statFail listFail : Bool) (files : List CacheFile) :
    Except String (List CacheFile) :=
  let total := if statFail then 0 else totalSize files
  if total ≤ MAX_CACHE_SIZE then .ok files
  else if listFail then .error "readDirectoryAsync failed"
  else .ok (sweepGo MAX_CACHE_SIZE (List.insertionSort byTime files) total).2

/-- Embedding of `FileManager.cleanupCache` as exported: the whole body is wrapped in
`try/catch` logging `Cache cleanup failed`,
so every escaping error is swallowed and the surviving file set is whatever
was reached (nothing was deleted before the listing, so on a caught error the
files are unchanged). -/
def cleanupCacheSafe (statFail listFail : Bool) (files : List CacheFile) :
    List CacheFile :=
  match cleanupCacheBody statFail listFail files with
  | .ok s => s
  | .error _ => files

/-- The `mutationFn` of the hook `addVideo` (src/hooks/useVideos.ts):
fetch current videos, prepend, `await FileManager.cleanupCache()`, then
`saveVideos`; `saveFail` models `AsyncStorage.setItem` throwing. -/
def addVideoFlow (statFail listFail saveFail : Bool) (files : List CacheFile) :
    Except String (List CacheFile) :=
  let fs := cleanupCacheSafe statFail listFail files
  if saveFail then .error "saveVideos failed" else .ok fs

/-! ## Trim-window metadata model

Paths are plain strings.  The sidecar store (`FileSystem.writeAsStringAsync`
of JSON `{startTime, endTime}` files) is an association list keyed by full
path; the indexed store of `videoService` (one JSON file per id in the
`metadata/` directory) is an association list keyed by id, together with the
in-memory `metadataCache`.  The asset directories are lists of stored
paths. -/

/-- Content of a sidecar metadata file: JSON `{ startTime, endTime }`. -/
structure SidecarMeta where
  startTime : Nat
  endTime : Nat
deriving DecidableEq, Repr

/-- Content of an indexed metadata record
(`VideoMetadata` in src/services/videoService.ts).  The CropModal helper in
src/unnamed/part_005 writes such a file without an `id` field, hence
`id : Option String`. -/
structure IndexedMeta where
  id : Option String
  uri : String
  startTime : Nat
  endTime : Nat
  duration : Nat
deriving DecidableEq, Repr

/-- What `getMetadata` (src/hooks/useVideos.ts, video-processor part)
returns: `{ startTime: 0, endTime: null }` when the file is absent or
unreadable, otherwise the parsed sidecar. -/
structure SidecarRead where
  startTime : Nat
  endTime : Option Nat
deriving DecidableEq, Repr

/-- The filesystem/in-memory state the metadata machinery touches. -/
structure FsState where
  sidecars : List (String × SidecarMeta)
  indexed : List (String × IndexedMeta)
  cache : List (String × IndexedMeta)
  videoFiles : List String
  thumbFiles : List String
deriving DecidableEq, Repr

def FsState.empty : FsState := ⟨[], [], [], [], []⟩

/-- Insert/overwrite a binding in an association list. -/
def alInsert (k : String) (v : α) (l : List (String × α)) : List (String × α) :=
  (k, v) :: l.filter (fun p => p.1 ≠ k)

/-- Path `documentDirectory ++ "videos/"` (`VIDEO_DIR` in the file-manager part). -/
def VIDEO_DIR : String := "doc/videos/"

/-- Path `documentDirectory ++ "thumbnails/"` (thumbnail directory). -/
def THUMB_DIR : String := "doc/thumbnails/"

/-- Path `documentDirectory ++ "metadata/"` (`metadataDir` of `videoService` and of
the CropModal helper — the same directory). -/
def METADATA_DIR : String := "doc/metadata/"

/-- Embedding of `uri.substring(0, uri.lastIndexOf(slash))`: everything before the last
slash (empty when there is no slash, as in JavaScript where
`substring(0, -1)` clamps to the empty string). -/
def dirOf (s : String) : String :=
  String.mk (((s.data.reverse.dropWhile (fun c => c ≠ '/')).drop 1).reverse)

/-- Embedding of `FileManager.saveVideo`: the copied file is named `Date.now() + ".mp4"`
inside `VIDEO_DIR`. -/
def savedVideoUri (now : Nat) : String := VIDEO_DIR ++ toString now ++ ".mp4"

/-- Embedding of `getMetadata(videoUri)`: reads the sidecar at `videoUri + ".meta"`;
returns `{startTime: 0, endTime: null}` when absent. -/
def getMetadata (videoUri : String) (st : FsState) : SidecarRead :=
  match (st.sidecars.lookup (videoUri ++ ".meta")) with
  | none => ⟨0, none⟩
  | some m => ⟨m.startTime, some m.endTime⟩

/-- Embedding of `videoService.getVideoMetadata(videoId)`: in-memory cache first, then the
indexed file `metadata/<videoId>.json`; `null` when neither exists. -/
def getVideoMetadata (videoId : String) (st : FsState) : Option IndexedMeta :=
  match st.cache.lookup videoId with
  | some m => some m
  | none => st.indexed.lookup videoId

/-- Embedding of `videoService.saveVideoMetadata`: writes `metadata/<id>.json` and
refreshes the cache entry for `id`. -/
def serviceSave (videoId : String) (meta : IndexedMeta) (st : FsState) : FsState :=
  { st with
    indexed := alInsert videoId meta st.indexed
    cache := alInsert videoId meta st.cache }

/-- One attempt of the dual write inside `processVideo`
(`Promise.all` of the sidecar write at `metadataPath` and
`videoService.saveVideoMetadata`).  Each half is applied exactly when its
failure oracle for this attempt is `false`; the attempt as a whole succeeds
only when both succeed. -/
def writeAttempt (sidecarFail serviceFail : Bool) (metadataPath finalUri : String)
    (startTime endTime : Nat) (videoId : String) (st : FsState) : Bool × FsState :=
  let st₁ := if sidecarFail then st
    else { st with sidecars := alInsert metadataPath ⟨startTime, endTime⟩ st.sidecars }
  let st₂ := if serviceFail then st₁
    else serviceSave videoId
      ⟨some videoId, finalUri, startTime, endTime, endTime - startTime⟩ st₁
  (!(sidecarFail || serviceFail), st₂)

/-- The retry loop of `processVideo`:
`while (!saved && attempts < 3) { try both writes; on failure attempts++ }`.
`k` is the current value of `attempts`, `fuel` the remaining tries
(`3 - attempts`).  Returns `saved` and the resulting state. -/
def writeLoop (sidecarFail serviceFail : Nat → Bool) (metadataPath finalUri : String)
    (startTime endTime : Nat) (videoId : String) :
    Nat → Nat → FsState → Bool × FsState
  | 0, _, st => (false, st)
  | fuel + 1, k, st =>
    let a := writeAttempt (sidecarFail k) (serviceFail k)
      metadataPath finalUri startTime endTime videoId st
    if a.1 then (true, a.2)
    else writeLoop sidecarFail serviceFail metadataPath finalUri
      startTime endTime videoId fuel (k + 1) a.2

/-- Embedding of `processVideo(sourceUri, startTime, endTime, videoId)`
(src/hooks/useVideos.ts, video-processor part):

1. `FileManager.saveVideo` copies the source into `VIDEO_DIR` under the name
   `Date.now() + ".mp4"`;
2. `metadataPath = videoDir + "/" + videoId + ".meta"` where
   `videoDir = finalUri.substring(0, finalUri.lastIndexOf(slash))`;
3. both metadata writes are retried while `!saved && attempts < 3`, sleeping
   1 s after each failure;
4. if still unsaved, throws `Failed to save metadata after 3 attempts`;
5. otherwise verifies by `getMetadata(finalUri)` — i.e. reads the sidecar at
   `finalUri + ".meta"` — and throws `Metadata verification failed` unless
   that read has a non-null `endTime`.

Returns the thrown message or the final uri, together with the state after
the run (the copied video file stays in the state in every branch — nothing
deletes it). -/
def processVideo (now : Nat) (sidecarFail serviceFail : Nat → Bool)
    (startTime endTime : Nat) (videoId : String)
    (st : FsState) : Except String String × FsState :=
  let finalUri := savedVideoUri now
  let st₀ := { st with videoFiles := finalUri :: st.videoFiles }
  let metadataPath := dirOf finalUri ++ "/" ++ videoId ++ ".meta"
  let res := writeLoop sidecarFail serviceFail metadataPath finalUri
    startTime endTime videoId 3 0 st₀
  if !res.1 then
    (.error "Failed to save metadata after 3 attempts", res.2)
  else
    match (getMetadata finalUri res.2).endTime with
    | none => (.error "Metadata verification failed", res.2)
    | some _ => (.ok finalUri, res.2)

/-- Constant `Number.MAX_SAFE_INTEGER`, the default `endTime` used by `VideoPlayer`
when no metadata can be found. -/
def maxSafeInteger : Nat := 9007199254740991

/-- One `loadMetadata` attempt of `VideoPlayer` (src/components/
VideoPlayer.tsx): the indexed store (`videoService.getVideoMetadata`) is
preferred; the sidecar (`getMetadata(uri)`) is the fallback, used only when
its `endTime` is non-null. -/
def loadMetadataOnce (videoId uri : String) (st : FsState) : Option IndexedMeta :=
  match getVideoMetadata videoId st with
  | some m => some m
  | none =>
    let localMeta := getMetadata uri st
    match localMeta.endTime with
    | some e =>
      some ⟨some videoId, uri, localMeta.startTime, e, e - localMeta.startTime⟩
    | none => none

/-- The trim window `VideoPlayer` ends up with: `attemptMetadataLoad` retries
`loadMetadata` up to 3 times against the same stores and, on the final
attempt, falls back to the permissive default
`{startTime: 0, endTime: Number.MAX_SAFE_INTEGER}`.  The state does not
change between attempts, so the retries collapse to one read plus the
default. -/
def readWindow (videoId uri : String) (st : FsState) : Nat × Nat :=
  match loadMetadataOnce videoId uri st with
  | some m => (m.startTime, m.endTime)
  | none => (0, maxSafeInteger)

/-- The CropModal-local `saveVideoMetadata` helper (src/unnamed/part_005):
writes the metadata record to `metadata/<generateUUID()>.json` — keyed by a
freshly generated uuid (`metaUuid`), not by any video id — and does not go
through `videoService` (no cache update, no `id` field in the JSON). -/
def cropModalSaveMetadata (metaUuid : String) (videoUri : String)
    (startTime endTime : Nat) (st : FsState) : FsState :=
  { st with
    indexed := alInsert metaUuid
      ⟨none, videoUri, startTime, endTime, endTime - startTime⟩ st.indexed }

/-- The actual create-memory flow of the add screen
(src/unnamed/part_005 `handleSave` followed by src/app/(tabs)/add.tsx
`handleCropComplete`):

1. the CropModal saves the metadata record under a fresh uuid `metaUuid`
   and hands `(startTime, endTime, ...)` to the parent;
2. `handleCropComplete` generates a thumbnail (saved under
   `thumbnails/<now>_<uuid>.jpg`), builds a `VideoEntry` whose `id` is
   another fresh uuid `vidUuid` and whose `uri` is the *original* picked
   video (`selectedVideo` — no copy into the video directory happens on this
   path), and adds it through the store.

Returns the resulting filesystem state and the `(id, uri)` of the created
video entry, which is what `VideoPlayer` is later given. -/
def createMemoryAdd (metaUuid vidUuid thumbUuid : String) (now : Nat)
    (selectedVideo : String) (startTime endTime : Nat) (st : FsState) :
    FsState × String × String :=
  let st₁ := cropModalSaveMetadata metaUuid selectedVideo startTime endTime st
  let thumbUri := THUMB_DIR ++ toString now ++ "_" ++ thumbUuid ++ ".jpg"
  let st₂ := { st₁ with thumbFiles := thumbUri :: st₁.thumbFiles }
  (st₂, vidUuid, selectedVideo)

/-! ## Repository model (`DatabaseService`, src/services/database.ts)

The SQLite store is embedded as lists of rows.  `setup()` runs
`PRAGMA foreign_keys = ON`, so the model enforces the declared foreign keys:
`videos.categoryId REFERENCES categories(id) ON DELETE SET NULL` and
`core_memories.videoId REFERENCES videos(id) ON DELETE CASCADE`.  A failing
statement rolls the enclosing transaction back, leaving the state
unchanged. -/

structure CategoryRow where
  id : String
  key : String
  name : String
  icon : String
  color : String
deriving DecidableEq, Repr

structure VideoRow where
  id : String
  uri : String
  thumbnail : String
  duration : Nat
  createdAt : String
  title : String
  description : Option String
  startTime : Nat
  endTime : Nat
  categoryId : Option String
deriving DecidableEq, Repr

structure CoreMemoryRow where
  videoId : String
  note : String
  color : String
  createdAt : String
  typeId : String
deriving DecidableEq, Repr

structure DbState where
  categories : List CategoryRow
  videos : List VideoRow
  coreMemories : List CoreMemoryRow
deriving DecidableEq, Repr

inductive DbErr where
  | pkViolation
  | fkViolation
deriving DecidableEq, Repr

def catExists (st : DbState) (c : String) : Bool :=
  st.categories.any (fun cat => cat.id = c)

def videoIdExists (st : DbState) (i : String) : Bool :=
  st.videos.any (fun v => v.id = i)

/-- The five categories seeded by `createInitialSchema`. -/
def seededCategories : List CategoryRow :=
  [⟨"all", "all", "All", "grid-outline", "#FFB6C1"⟩,
   ⟨"friends", "friends", "Friends", "people-outline", "#ADD8E6"⟩,
   ⟨"family", "family", "Family", "heart-outline", "#98FB98"⟩,
   ⟨"travel", "travel", "Travel", "airplane-outline", "#DDA0DD"⟩,
   ⟨"special", "special", "Special", "star-outline", "#FFD700"⟩]

/-- The state right after `createInitialSchema`. -/
def initialDbState : DbState := ⟨seededCategories, [], []⟩

/-- Embedding of `addVideo(video)` (src/services/database.ts): inside one transaction,
look the supplied id up; if a row with that id already exists insert under a
freshly minted uuid (`fresh`) instead, leaving the existing row untouched;
the inserted `categoryId` is `video.categoryId ?? "all"`.  The INSERT itself
can still fail: on a primary-key collision of the id actually used, or on a
foreign-key violation when the referenced category does not exist; either
failure rolls the transaction back.  Returns the id of the inserted row. -/
def dbAddVideo (fresh : String) (v : VideoRow) (st : DbState) :
    Except DbErr (String × DbState) :=
  let idToUse := if videoIdExists st v.id then fresh else v.id
  let cat := v.categoryId.getD "all"
  if videoIdExists st idToUse then .error .pkViolation
  else if !catExists st cat then .error .fkViolation
  else
    .ok (idToUse,
      { st with videos := { v with id := idToUse, categoryId := some cat } :: st.videos })

/-- Embedding of `deleteVideo(id)`: `DELETE FROM videos WHERE id = ?`; the
`ON DELETE CASCADE` constraint removes the core-memory row keyed by the same
video id in the same statement. -/
def dbDeleteVideo (i : String) (st : DbState) : DbState :=
  { st with
    videos := st.videos.filter (fun v => v.id ≠ i)
    coreMemories := st.coreMemories.filter (fun m => m.videoId ≠ i) }

/-- The field updates `updateVideo(id, updates)` can carry (the callers pass
title/description/category/date edits).  `none` means the field is absent
from `updates` and left untouched; for `categoryId`, `some none` is an
explicit NULL. -/
structure VideoUpdate where
  title : Option String := none
  description : Option (Option String) := none
  categoryId : Option (Option String) := none
  createdAt : Option String := none
  startTime : Option Nat := none
  endTime : Option Nat := none
deriving DecidableEq, Repr

def applyVideoUpdate (u : VideoUpdate) (v : VideoRow) : VideoRow :=
  { v with
    title := u.title.getD v.title
    description := u.description.getD v.description
    categoryId := u.categoryId.getD v.categoryId
    createdAt := u.createdAt.getD v.createdAt
    startTime := u.startTime.getD v.startTime
    endTime := u.endTime.getD v.endTime }

/-- Embedding of `updateVideo(id, updates)`: builds an UPDATE touching only the supplied
fields; zero fields is a successful no-op.  When the update sets
`categoryId` to a non-null value, the foreign key requires that category to
exist for every updated row. -/
def dbUpdateVideo (i : String) (u : VideoUpdate) (st : DbState) :
    Except DbErr DbState :=
  match u.categoryId with
  | some (some c) =>
    if videoIdExists st i ∧ !catExists st c then .error .fkViolation
    else .ok { st with
      videos := st.videos.map (fun v => if v.id = i then applyVideoUpdate u v else v) }
  | _ =>
    .ok { st with
      videos := st.videos.map (fun v => if v.id = i then applyVideoUpdate u v else v) }

/-- Embedding of `addCategory(category)`: plain INSERT; duplicate id is a primary-key
violation. -/
def dbAddCategory (c : CategoryRow) (st : DbState) : Except DbErr DbState :=
  if catExists st c.id then .error .pkViolation
  else .ok { st with categories := c :: st.categories }

/-- Embedding of `updateCategory(id, updates)` as invoked by the settings screen: only
name/icon/color are edited; the id is never among the updated fields. -/
def dbUpdateCategory (i : String) (name icon color : Option String)
    (st : DbState) : DbState :=
  { st with categories := st.categories.map (fun c =>
      if c.id = i then
        { c with name := name.getD c.name, icon := icon.getD c.icon,
                 color := color.getD c.color }
      else c) }

/-- Embedding of `deleteCategory(id)` (src/services/database.ts, lines 542-569).  There is
no sentinel check of any kind: inside one transaction the code runs

1. `UPDATE videos SET categoryId = "all" WHERE categoryId = ?` — under
   `foreign_keys = ON` this fails (rolling the transaction back) when a row
   is actually updated while no category `"all"` exists;
2. `DELETE FROM categories WHERE id = ?` — `ON DELETE SET NULL` nulls the
   `categoryId` of any video still referencing the deleted row. -/
def dbDeleteCategory (i : String) (st : DbState) : Except DbErr DbState :=
  if st.videos.any (fun v => v.categoryId = some i) ∧ !catExists st "all" then
    .error .fkViolation
  else
    let vids₁ := st.videos.map (fun v =>
      if v.categoryId = some i then { v with categoryId := some "all" } else v)
    let cats₁ := st.categories.filter (fun c => c.id ≠ i)
    let vids₂ := vids₁.map (fun v =>
      if v.categoryId = some i then { v with categoryId := none } else v)
    .ok { st with categories := cats₁, videos := vids₂ }

/-- Embedding of `addCoreMemory(memory)`: `INSERT OR REPLACE INTO core_memories` keyed by
`videoId`; the foreign key requires the video row to exist. -/
def dbAddCoreMemory (m : CoreMemoryRow) (st : DbState) : Except DbErr DbState :=
  if !videoIdExists st m.videoId then .error .fkViolation
  else .ok { st with
    coreMemories := m :: st.coreMemories.filter (fun x => x.videoId ≠ m.videoId) }

/-- Embedding of `deleteCoreMemory(videoId)`. -/
def dbDeleteCoreMemory (i : String) (st : DbState) : DbState :=
  { st with coreMemories := st.coreMemories.filter (fun m => m.videoId ≠ i) }

/-- The mutating repository operations, as issued by the app.  `addVideo`
carries the uuid `generateUUID()` would mint on an id collision. -/
inductive RepOp where
  | addCategory (c : CategoryRow)
  | updateCategory (i : String) (name icon color : Option String)
  | deleteCategory (i : String)
  | addVideo (fresh : String) (v : VideoRow)
  | updateVideo (i : String) (u : VideoUpdate)
  | deleteVideo (i : String)
  | addCoreMemory (m : CoreMemoryRow)
  | deleteCoreMemory (i : String)
deriving DecidableEq, Repr

def applyOp (op : RepOp) (st : DbState) : Except DbErr DbState :=
  match op with
  | .addCategory c => dbAddCategory c st
  | .updateCategory i n ic co => .ok (dbUpdateCategory i n ic co st)
  | .deleteCategory i => dbDeleteCategory i st
  | .addVideo fresh v => (dbAddVideo fresh v st).map (·.2)
  | .updateVideo i u => dbUpdateVideo i u st
  | .deleteVideo i => .ok (dbDeleteVideo i st)
  | .addCoreMemory m => dbAddCoreMemory m st
  | .deleteCoreMemory i => .ok (dbDeleteCoreMemory i st)

/-- A failing statement surfaces an error to the caller and leaves the store
unchanged (statement/transaction rollback); the app then continues. -/
def stepOp (st : DbState) (op : RepOp) : DbState :=
  match applyOp op st with
  | .ok st' => st'
  | .error _ => st

def runOps (ops : List RepOp) (st : DbState) : DbState :=
  ops.foldl stepOp st

/-- Referential integrity of `videos.categoryId`: every non-null category
reference points at an existing category row. -/
def CatRefOk (st : DbState) : Prop :=
  ∀ v ∈ st.videos, ∀ c, v.categoryId = some c → catExists st c = true

/-! ### UI-level category deletion guard

`handleDeleteCategory` (src/app/(tabs)/settings.tsx): the sentinel check
lives here, not in the repository — `if (category.id === "all")` shows an
alert and returns before `DatabaseService.deleteCategory` is ever invoked.
The returned flag records whether the repository was invoked. -/
def handleDeleteCategory (catId : String) (st : DbState) : DbState × Bool :=
  if catId = "all" then (st, false)
  else
    match dbDeleteCategory catId st with
    | .ok st' => (st', true)
    | .error _ => (st, true)

/-! ### Statement execution / lock-retry model

For the retry claim the unit of interest is the attempt: an execution oracle
maps the attempt index to `none` (statement succeeded) or `some e`
(statement threw `e`).  `retryOperation` (src/services/database.ts, lines
41-60) loops `for (i = 0; i < maxRetries; i++)`: a success returns, the last
attempt rethrows, an error whose message includes `database table is
locked` sleeps and retries, any other error rethrows at once. -/

inductive ExecErr where
  | locked
  | other
deriving DecidableEq, Repr

/-- Embedding of `retryOperation(operation, maxRetries = 3, delay = 1000)`.  Returns the
outcome together with the number of attempts actually made. -/
def retryOperation (oracle : Nat → Option ExecErr) :
    Nat → Nat → Except ExecErr Unit × Nat
  | 0, k => (.error .other, k)
  | fuel + 1, k =>
    match oracle k with
    | none => (.ok (), k + 1)
    | some e =>
      if fuel = 0 then (.error e, k + 1)
      else if e = .locked then retryOperation oracle fuel (k + 1)
      else (.error e, k + 1)

/-- In src/services/database.ts, `retryOperation` wraps exactly one thing:
the schema-initialization step inside `setup()` (create schema or migrate),
with 3 retries and a 1 s delay. -/
def setupSchemaStep (oracle : Nat → Option ExecErr) : Except ExecErr Unit × Nat :=
  retryOperation oracle 3 0

/-- The mutating CRUD statements (`deleteVideo`, `updateVideo`,
`addCategory`, `deleteCategory`, `addCoreMemory`, ... ) each run their
statement once inside a try/catch that logs and rethrows: attempt 0 is the
only attempt, whatever the error. -/
def mutatingStatementRun (oracle : Nat → Option ExecErr) :
    Except ExecErr Unit × Nat :=
  match oracle 0 with
  | none => (.ok (), 1)
  | some e => (.error e, 1)

/-! ### Orchestrated deletion (`useVideoStore.deleteVideo`,
src/stores/useLanguageStore.ts, video-store part)

`deleteVideo(id, videoUri, thumbnailUri)` awaits
`DatabaseService.deleteVideo(id)` first and only then awaits
`FileManager.deleteVideo(videoUri, thumbnailUri)`; if the database delete
throws, the catch block rethrows before any file operation runs.  The
emitted effect trace records the order. -/

inductive Effect where
  | rowDelete (videoId : String)
  | fileDelete (path : String)
deriving DecidableEq, Repr

/-- Remove a path from the asset directories (idempotent
`FileSystem.deleteAsync`). -/
def removeFile (p : String) (st : FsState) : FsState :=
  { st with
    videoFiles := st.videoFiles.filter (fun q => q ≠ p)
    thumbFiles := st.thumbFiles.filter (fun q => q ≠ p)
    sidecars := st.sidecars.filter (fun q => q.1 ≠ p) }

/-- Embedding of `useVideoStore.deleteVideo`: `dbFail` tells whether
`DatabaseService.deleteVideo` throws.  Returns the outcome, the resulting
database and filesystem states, and the effect trace in execution order. -/
def deleteMemory (dbFail : Bool) (i videoUri thumbnailUri : String)
    (db : DbState) (fs : FsState) :
    Except String Unit × DbState × FsState × List Effect :=
  if dbFail then (.error "Failed to delete video", db, fs, [])
  else
    let db' := dbDeleteVideo i db
    let fs' := removeFile thumbnailUri (removeFile videoUri fs)
    (.ok (), db', fs',
      [.rowDelete i, .fileDelete videoUri, .fileDelete thumbnailUri])

/-! ## Concrete inputs used by the witness theorems -/

/-- Two cached files, 400 MB (created at instant 2) and 200 MB (instant 1):
600 MB total against the 500 MB budget. -/
def witnessFiles : List CacheFile :=
  [⟨2, 400 * 1024 * 1024, false⟩, ⟨1, 200 * 1024 * 1024, false⟩]

/-- Oracle: every attempt of the indexed-store write fails. -/
def allServiceFail : Nat → Bool := fun _ => true

/-- Oracle: no failure at any attempt. -/
def noFail : Nat → Bool := fun _ => false

/-- Execution oracle: the statement is locked on attempt 0 and would succeed
on attempt 1. -/
def lockedOnce : Nat → Option ExecErr := fun n =>
  if n = 0 then some .locked else none

/-- Execution oracle: the store is locked at every attempt. -/
def allLocked : Nat → Option ExecErr := fun _ => some .locked

/-- A video row already stored under the id `"dup"`. -/
def dupRow : VideoRow :=
  ⟨"dup", "doc/videos/1.mp4", "doc/thumbnails/1.jpg", 9, "2024-01-01", "Old",
    none, 1, 2, some "all"⟩

/-- A database state containing `dupRow`. -/
def dbWithDup : DbState := { initialDbState with videos := [dupRow] }

/-- A video row submitted with the already-taken id `"dup"`. -/
def collidingRow : VideoRow :=
  ⟨"dup", "doc/videos/2.mp4", "doc/thumbnails/2.jpg", 5, "2024-01-02", "New",
    none, 0, 5, none⟩

/-- A sample operation sequence for the referential-integrity witness:
add a category, add a video into it, delete the category. -/
def witnessOps : List RepOp :=
  [.addCategory ⟨"pets", "pets", "Pets", "paw-outline", "#AAAAAA"⟩,
   .addVideo "fresh-1" ⟨"v1", "doc/videos/3.mp4", "doc/thumbnails/3.jpg", 5,
     "2024-01-03", "Cat", none, 0, 5, some "pets"⟩,
   .deleteCategory "pets"]

/-- A state holding a `"pets"` category and one video filed under it. -/
def stPets : DbState :=
  ⟨⟨"pets", "pets", "Pets", "paw-outline", "#AAAAAA"⟩ :: seededCategories,
   [⟨"v1", "doc/videos/3.mp4", "doc/thumbnails/3.jpg", 5, "2024-01-03", "Cat",
     none, 0, 5, some "pets"⟩], []⟩

/-- State `stPets` after `deleteCategory("pets")`: the category row is gone and the
video has been reassigned to the sentinel `"all"`. -/
def stPetsAfter : DbState :=
  ⟨seededCategories,
   [⟨"v1", "doc/videos/3.mp4", "doc/thumbnails/3.jpg", 5, "2024-01-03", "Cat",
     none, 0, 5, some "all"⟩], []⟩

/-! ## Lemmas about the cache sweep -/

lemma sweepGo_deleted_sublist (b : Nat) :
    ∀ (l : List CacheFile) (cur : Nat), List.Sublist (sweepGo b l cur).1 l
  | [], _ => by simp [sweepGo]
  | f :: rest, cur => by
    by_cases hb : cur ≤ b
    · simp [sweepGo, hb]
    · by_cases hf : f.fails = true
      · simpa [sweepGo, hb, hf] using (sweepGo_deleted_sublist b rest cur).cons f
      · simpa [sweepGo, hb, hf] using
          (sweepGo_deleted_sublist b rest (cur - f.size)).cons₂ f

lemma sweepGo_deleted_not_fails (b : Nat) :
    ∀ (l : List CacheFile) (cur : Nat), ∀ f ∈ (sweepGo b l cur).1, f.fails = false
  | [], _ => by simp [sweepGo]
  | f :: rest, cur => by
    by_cases hb : cur ≤ b
    · simp [sweepGo, hb]
    · by_cases hf : f.fails = true
      · simpa [sweepGo, hb, hf] using sweepGo_deleted_not_fails b rest cur
      · intro g hg
        simp only [sweepGo, if_neg hb] at hg
        rw [if_neg hf] at hg
        rcases List.mem_cons.mp hg with h | h
        · subst h
          exact Bool.eq_false_iff.mpr hf
        · exact sweepGo_deleted_not_fails b rest (cur - f.size) g h

lemma sweepGo_stop (b : Nat) :
    ∀ (l : List CacheFile) (cur : Nat),
      cur - totalSize (sweepGo b l cur).1 ≤ b ∨
        ∀ f ∈ (sweepGo b l cur).2, f.fails = true
  | [], cur => by simp [sweepGo]
  | f :: rest, cur => by
    by_cases hb : cur ≤ b
    · left
      simp [sweepGo, hb, totalSize]
    · by_cases hf : f.fails = true
      · rcases sweepGo_stop b rest cur with h | h
        · left
          simpa [sweepGo, hb, hf] using h
        · right
          intro g hg
          simp only [sweepGo, if_neg hb] at hg
          rw [if_pos hf] at hg
          rcases List.mem_cons.mp hg with hgf | hgr
          · subst hgf; exact hf
          · exact h g hgr
      · rcases sweepGo_stop b rest (cur - f.size) with h | h
        · left
          simpa [sweepGo, hb, hf, totalSize, Nat.sub_sub] using h
        · right
          simpa [sweepGo, hb, hf] using h

lemma sweepGo_noFail_split (b : Nat) :
    ∀ (l : List CacheFile) (cur : Nat), (∀ f ∈ l, f.fails = false) →
      (sweepGo b l cur).1 ++ (sweepGo b l cur).2 = l
  | [], _ => by simp [sweepGo]
  | f :: rest, cur => by
    intro h
    by_cases hb : cur ≤ b
    · simp [sweepGo, hb]
    · have hf : ¬ f.fails = true := by
        simp [h f (List.mem_cons_self f rest)]
      simpa [sweepGo, hb, hf] using sweepGo_noFail_split b rest (cur - f.size)
        (fun g hg => h g (List.mem_cons_of_mem f hg))

lemma insertionSort_byTime_pairwise_lt (files : List CacheFile)
    (hnd : (files.map (·.time)).Nodup) :
    List.Pairwise (fun a b => a.time < b.time) (List.insertionSort byTime files) := by
  have hsorted : List.Pairwise byTime (List.insertionSort byTime files) :=
    List.sorted_insertionSort byTime files
  have hperm : List.Perm (List.insertionSort byTime files) files :=
    List.perm_insertionSort byTime files
  have hnd' : ((List.insertionSort byTime files).map (·.time)).Nodup :=
    ((hperm.map (·.time)).nodup_iff).mpr hnd
  have hne : List.Pairwise (fun a b : CacheFile => a.time ≠ b.time)
      (List.insertionSort byTime files) := by
    simpa [List.Nodup, List.pairwise_map] using hnd'
  exact (hsorted.and hne).imp (fun h => Nat.lt_of_le_of_ne h.1 h.2)

/-! ## C8: the cache-budget sweep -/

/-- Claim C8 (confirmed). Whenever the cache-budget sweep runs: at or under the 500 MB
budget it deletes nothing (so repeated runs once under budget are
idempotent); over budget it deletes files in strictly ascending order of the
creation instant encoded in their names (the encoded instants being
pairwise distinct), never counts a file whose deletion fails as freed (such
a file survives), and stops once the remaining size is at or below the
budget or only undeletable files remain; when every deletion succeeds, the
deleted and surviving files partition the cache and every deleted file is
strictly older than every survivor, so the survivors are exactly the
most-recent files. -/
theorem cleanupCache_budget_sweep (files : List CacheFile)
    (hnd : (files.map (·.time)).Nodup) :
    (totalSize files ≤ MAX_CACHE_SIZE → cleanupCache files = ([], files)) ∧
    List.Pairwise (fun a b => a.time < b.time) (cleanupCache files).1 ∧
    (∀ f ∈ (cleanupCache files).1, f.fails = false) ∧
    (totalSize files - totalSize (cleanupCache files).1 ≤ MAX_CACHE_SIZE ∨
      ∀ f ∈ (cleanupCache files).2, f.fails = true) ∧
    ((∀ f ∈ files, f.fails = false) →
      List.Perm ((cleanupCache files).1 ++ (cleanupCache files).2) files ∧
      ∀ d ∈ (cleanupCache files).1, ∀ s ∈ (cleanupCache files).2,
        d.time < s.time) := by
  by_cases hle : totalSize files ≤ MAX_CACHE_SIZE
  · have hc : cleanupCache files = ([], files) := by simp [cleanupCache, hle]
    refine ⟨fun _ => hc, ?_, ?_, ?_, ?_⟩
    · rw [hc]; exact List.Pairwise.nil
    · rw [hc]; simp
    · left; rw [hc]; simpa [totalSize] using hle
    · intro _; rw [hc]; exact ⟨by simp, by simp⟩
  · have hc : cleanupCache files =
        sweepGo MAX_CACHE_SIZE (List.insertionSort byTime files)
          (totalSize files) := by
      simp [cleanupCache, hle]
    have hplt := insertionSort_byTime_pairwise_lt files hnd
    refine ⟨fun h => absurd h hle, ?_, ?_, ?_, ?_⟩
    · rw [hc]
      exact List.Pairwise.sublist (sweepGo_deleted_sublist _ _ _) hplt
    · rw [hc]
      exact sweepGo_deleted_not_fails _ _ _
    · rw [hc]
      exact sweepGo_stop _ _ _
    · intro hnf
      have hnf' : ∀ f ∈ List.insertionSort byTime files, f.fails = false :=
        fun f hf =>
          hnf f ((List.perm_insertionSort byTime files).mem_iff.mp hf)
      have hsplit := sweepGo_noFail_split MAX_CACHE_SIZE
        (List.insertionSort byTime files) (totalSize files) hnf'
      constructor
      · rw [hc, hsplit]
        exact List.perm_insertionSort byTime files
      · rw [hc]
        intro d hd s hs
        have hp : List.Pairwise (fun a b => a.time < b.time)
            ((sweepGo MAX_CACHE_SIZE (List.insertionSort byTime files)
                (totalSize files)).1 ++
              (sweepGo MAX_CACHE_SIZE (List.insertionSort byTime files)
                (totalSize files)).2) := by
          rw [hsplit]; exact hplt
        exact (List.pairwise_append.mp hp).2.2 d hd s hs

/-- Witness for C8 at a concrete 600 MB cache against the 500 MB budget. -/
theorem cleanupCache_budget_sweep_witness :
    (witnessFiles.map (·.time)).Nodup ∧
    ((totalSize witnessFiles ≤ MAX_CACHE_SIZE →
        cleanupCache witnessFiles = ([], witnessFiles)) ∧
      List.Pairwise (fun a b => a.time < b.time) (cleanupCache witnessFiles).1 ∧
      (∀ f ∈ (cleanupCache witnessFiles).1, f.fails = false) ∧
      (totalSize witnessFiles - totalSize (cleanupCache witnessFiles).1 ≤
          MAX_CACHE_SIZE ∨
        ∀ f ∈ (cleanupCache witnessFiles).2, f.fails = true) ∧
      ((∀ f ∈ witnessFiles, f.fails = false) →
        List.Perm ((cleanupCache witnessFiles).1 ++
          (cleanupCache witnessFiles).2) witnessFiles ∧
        ∀ d ∈ (cleanupCache witnessFiles).1,
          ∀ s ∈ (cleanupCache witnessFiles).2, d.time < s.time)) :=
  ⟨by decide, cleanupCache_budget_sweep witnessFiles (by decide)⟩

/-! ## C10: the sweep never raises -/

/-- Claim C10 (confirmed). The cache-budget sweep never raises to its caller: a failing
directory stat is absorbed inside `getFileStats`, a failing directory
listing escapes only as far as the catch of the sweep itself (leaving the files
untouched), and individual deletion failures are skipped, so the hook
add-video flow errors exactly when its own save step errors — never because
of budget enforcement. -/
theorem cleanupCache_never_raises (statFail listFail saveFail : Bool)
    (files : List CacheFile) :
    (∀ e, cleanupCacheBody statFail listFail files = .error e →
      cleanupCacheSafe statFail listFail files = files) ∧
    (saveFail = false →
      addVideoFlow statFail listFail saveFail files =
        .ok (cleanupCacheSafe statFail listFail files)) ∧
    (saveFail = true →
      addVideoFlow statFail listFail saveFail files =
        .error "saveVideos failed") := by
  refine ⟨?_, ?_, ?_⟩
  · intro e he
    simp [cleanupCacheSafe, he]
  · intro h
    subst h
    simp [addVideoFlow]
  · intro h
    subst h
    simp [addVideoFlow]

/-- Witness for C10: the listing fails on an over-budget cache, yet the
sweep returns the files unchanged and only a save failure makes the
enclosing add fail. -/
theorem cleanupCache_never_raises_witness :
    cleanupCacheSafe false true witnessFiles = witnessFiles ∧
    addVideoFlow false true false witnessFiles =
      .ok (cleanupCacheSafe false true witnessFiles) ∧
    addVideoFlow false true true witnessFiles = .error "saveVideos failed" :=
  ⟨(cleanupCache_never_raises false true false witnessFiles).1
      "readDirectoryAsync failed" (by rfl),
   (cleanupCache_never_raises false true false witnessFiles).2.1 rfl,
   (cleanupCache_never_raises false true true witnessFiles).2.2 rfl⟩

/-! ## Lemmas about the metadata write loop -/

lemma writeAttempt_files (a b : Bool) (mp fu : String) (s e : Nat)
    (vid : String) (st : FsState) :
    ((writeAttempt a b mp fu s e vid st).2).videoFiles = st.videoFiles ∧
    ((writeAttempt a b mp fu s e vid st).2).thumbFiles = st.thumbFiles := by
  cases a <;> cases b <;> exact ⟨rfl, rfl⟩

lemma writeLoop_files (sf svf : Nat → Bool) (mp fu : String) (s e : Nat)
    (vid : String) :
    ∀ (fuel k : Nat) (st : FsState),
      ((writeLoop sf svf mp fu s e vid fuel k st).2).videoFiles =
        st.videoFiles ∧
      ((writeLoop sf svf mp fu s e vid fuel k st).2).thumbFiles =
        st.thumbFiles
  | 0, _, _ => ⟨rfl, rfl⟩
  | fuel + 1, k, st => by
    have ha := writeAttempt_files (sf k) (svf k) mp fu s e vid st
    have ih := writeLoop_files sf svf mp fu s e vid fuel (k + 1)
      ((writeAttempt (sf k) (svf k) mp fu s e vid st).2)
    simp only [writeLoop]
    by_cases h : ((writeAttempt (sf k) (svf k) mp fu s e vid st).1) = true
    · simp [h, ha.1, ha.2]
    · simp only [Bool.not_eq_true] at h
      simp [h, ih.1, ih.2, ha.1, ha.2]

lemma writeLoop_allFail (sf svf : Nat → Bool) (mp fu : String) (s e : Nat)
    (vid : String) :
    ∀ (fuel k : Nat) (st : FsState),
      (∀ j, k ≤ j → j < k + fuel → (sf j || svf j) = true) →
      (writeLoop sf svf mp fu s e vid fuel k st).1 = false
  | 0, _, _, _ => rfl
  | fuel + 1, k, st, h => by
    have hk : (sf k || svf k) = true := h k le_rfl (by omega)
    have ha1 : (writeAttempt (sf k) (svf k) mp fu s e vid st).1 = false := by
      simp [writeAttempt, hk]
    simp only [writeLoop, ha1]
    simpa using writeLoop_allFail sf svf mp fu s e vid fuel (k + 1) _
      (fun j h1 h2 => h j (by omega) (by omega))

/-! ## C1: trim-window round-trip -/

/-- Claim C1 is refuted by the code. Creating a memory through the actual
add-screen flow with the valid window `(2, 7)` and then reading the window
back for that video — indexed store first, sidecar as fallback — does *not*
return `(2, 7)`: the CropModal stored the indexed record under the fresh
uuid `"u-meta"` while the id of the video is the distinct fresh uuid `"u-vid"`,
and no sidecar was ever written at `uri + ".meta"`, so the read falls
through to the permissive default `(0, Number.MAX_SAFE_INTEGER)`. -/
theorem createMemory_roundTrip_returns_default :
    readWindow
      (createMemoryAdd "u-meta" "u-vid" "u-thumb" 100 "picker/clip.mov" 2 7
        FsState.empty).2.1
      (createMemoryAdd "u-meta" "u-vid" "u-thumb" 100 "picker/clip.mov" 2 7
        FsState.empty).2.2
      (createMemoryAdd "u-meta" "u-vid" "u-thumb" 100 "picker/clip.mov" 2 7
        FsState.empty).1 = (0, maxSafeInteger) ∧
    ((0, maxSafeInteger) : Nat × Nat) ≠ (2, 7) := by
  exact ⟨rfl, by decide⟩

/-! ## C2: the dual metadata write and its verification -/

/-- Claim C2 is refuted by the code. With every I/O operation succeeding,
`processVideo` persists the sidecar at `videoDir/<videoId>.meta` (not at the
asset path + ".meta") and the indexed store keyed by the video id, yet still
raises the fatal `"Metadata verification failed"`: the read-back step is
`getMetadata(finalUri)`, which reads the sidecar at `finalUri + ".meta"` — a
path never written — rather than the indexed store, so the write raises a
fatal error even though the indexed store holds a non-null `endTime`. -/
theorem processVideo_verification_always_fails :
    (processVideo 100 noFail noFail 2 7 "vid-1" FsState.empty).1 =
      .error "Metadata verification failed" ∧
    getVideoMetadata "vid-1"
      (processVideo 100 noFail noFail 2 7 "vid-1" FsState.empty).2 =
      some ⟨some "vid-1", "doc/videos/100.mp4", 2, 7, 5⟩ ∧
    ((processVideo 100 noFail noFail 2 7 "vid-1" FsState.empty).2).sidecars.lookup
      "doc/videos/vid-1.meta" = some ⟨2, 7⟩ :=
  ⟨rfl, rfl, rfl⟩

/-! ## C3: abort behaviour of the metadata write -/

/-- Claim C3, counterexample. With the indexed-store write failing on all 3
attempts, `processVideo` aborts — but the just-saved video file is still in
the asset store afterward, contradicting the claim that neither saved file
remains. -/
theorem processVideo_abort_keeps_video_file :
    (processVideo 100 noFail allServiceFail 2 7 "vid-1" FsState.empty).1 =
      .error "Failed to save metadata after 3 attempts" ∧
    "doc/videos/100.mp4" ∈
      (processVideo 100 noFail allServiceFail 2 7 "vid-1" FsState.empty).2.videoFiles := by
  exact ⟨rfl, by decide⟩

/-- Claim C3 as amended. If the combined metadata write fails all 3 retry
attempts, `processVideo` aborts with
`"Failed to save metadata after 3 attempts"`; no cleanup is performed: the
just-saved video file remains in the asset store, and no thumbnail has been
saved at that point (the thumbnail is generated only after `processVideo`
returns, so the thumbnail directory is untouched). -/
theorem processVideo_abort_leaves_video_file (now : Nat)
    (sidecarFail serviceFail : Nat → Bool) (startTime endTime : Nat)
    (videoId : String) (st : FsState)
    (hfail : ∀ k, k < 3 → (sidecarFail k || serviceFail k) = true) :
    (processVideo now sidecarFail serviceFail startTime endTime videoId st).1 =
      .error "Failed to save metadata after 3 attempts" ∧
    savedVideoUri now ∈
      ((processVideo now sidecarFail serviceFail startTime endTime videoId
        st).2).videoFiles ∧
    ((processVideo now sidecarFail serviceFail startTime endTime videoId
      st).2).thumbFiles = st.thumbFiles := by
  have hsaved : (writeLoop sidecarFail serviceFail
      (dirOf (savedVideoUri now) ++ "/" ++ videoId ++ ".meta")
      (savedVideoUri now) startTime endTime videoId 3 0
      { st with videoFiles := savedVideoUri now :: st.videoFiles }).1 =
        false :=
    writeLoop_allFail sidecarFail serviceFail _ _ _ _ _ 3 0 _
      (fun j _ h2 => hfail j (by omega))
  have hfiles := writeLoop_files sidecarFail serviceFail
    (dirOf (savedVideoUri now) ++ "/" ++ videoId ++ ".meta")
    (savedVideoUri now) startTime endTime videoId 3 0
    { st with videoFiles := savedVideoUri now :: st.videoFiles }
  simp only [processVideo, hsaved, Bool.not_false, if_true]
  refine ⟨trivial, ?_, ?_⟩
  · rw [hfiles.1]
    exact List.mem_cons_self _ _
  · exact hfiles.2

/-- Witness for the amended C3 at a concrete all-failing indexed store. -/
theorem processVideo_abort_witness :
    (∀ k, k < 3 → (noFail k || allServiceFail k) = true) ∧
    ((processVideo 100 noFail allServiceFail 0 5 "vid-2" FsState.empty).1 =
        .error "Failed to save metadata after 3 attempts" ∧
      savedVideoUri 100 ∈
        ((processVideo 100 noFail allServiceFail 0 5 "vid-2"
          FsState.empty).2).videoFiles ∧
      ((processVideo 100 noFail allServiceFail 0 5 "vid-2"
        FsState.empty).2).thumbFiles = FsState.empty.thumbFiles) :=
  ⟨by decide,
   processVideo_abort_leaves_video_file 100 noFail allServiceFail 0 5 "vid-2"
     FsState.empty (by decide)⟩

/-! ## C4: row deletion precedes file deletion -/

/-- Claim C4 (confirmed). In the orchestrated memory deletion (`useVideoStore.deleteVideo`)
the database row delete — which cascades the core-memory row keyed by the
video id — always runs before the video and thumbnail files are deleted:
every file-delete effect in the trace is strictly preceded by the row-delete
effect, when the row delete fails no file is touched at all, and on success
the row and its core memory are gone from the database state handed to the
file deletes. -/
theorem deleteMemory_row_before_files (dbFail : Bool)
    (i videoUri thumbUri : String) (db : DbState) (fs : FsState) :
    (∀ n p, ((deleteMemory dbFail i videoUri thumbUri db fs).2.2.2).get? n =
        some (.fileDelete p) →
      ∃ m, m < n ∧
        ((deleteMemory dbFail i videoUri thumbUri db fs).2.2.2).get? m =
          some (.rowDelete i)) ∧
    (dbFail = true →
      (deleteMemory dbFail i videoUri thumbUri db fs).1 =
        .error "Failed to delete video" ∧
      (deleteMemory dbFail i videoUri thumbUri db fs).2.2.1 = fs ∧
      (deleteMemory dbFail i videoUri thumbUri db fs).2.2.2 = []) ∧
    (dbFail = false →
      (deleteMemory dbFail i videoUri thumbUri db fs).2.1 =
        dbDeleteVideo i db ∧
      videoIdExists (dbDeleteVideo i db) i = false ∧
      ∀ m ∈ (dbDeleteVideo i db).coreMemories, m.videoId ≠ i) := by
  have hvid : videoIdExists (dbDeleteVideo i db) i = false := by
    rw [Bool.eq_false_iff]
    intro hx
    rw [videoIdExists, List.any_eq_true] at hx
    obtain ⟨x, hx1, hx2⟩ := hx
    have hmem := List.mem_filter.mp hx1
    simp only [decide_eq_true_eq] at hmem hx2
    exact hmem.2 hx2
  have hcm : ∀ m ∈ (dbDeleteVideo i db).coreMemories, m.videoId ≠ i := by
    intro m hm
    have hmem := List.mem_filter.mp hm
    simpa using hmem.2
  cases dbFail
  · refine ⟨?_, ?_, ?_⟩
    · intro n p hn
      match n, hn with
      | 0, hn => exact absurd hn (by simp [deleteMemory])
      | m + 1, hn => exact ⟨0, Nat.succ_pos m, rfl⟩
    · intro h
      exact absurd h (by simp)
    · intro _
      exact ⟨rfl, hvid, hcm⟩
  · refine ⟨?_, ?_, ?_⟩
    · intro n p hn
      exact absurd hn (by simp [deleteMemory, List.get?])
    · intro _
      exact ⟨rfl, rfl, rfl⟩
    · intro h
      exact absurd h (by simp)

/-- Witness for C4: a failing row delete leaves the files untouched, and a
successful deletion removes the row and cascades before the file-delete
effects, which sit after the row delete in the trace. -/
theorem deleteMemory_row_before_files_witness :
    (deleteMemory true "dup" "a.mp4" "b.jpg" dbWithDup FsState.empty).2.2.1 =
      FsState.empty ∧
    videoIdExists (dbDeleteVideo "dup" dbWithDup) "dup" = false ∧
    (∃ m, m < 1 ∧
      ((deleteMemory false "dup" "a.mp4" "b.jpg" dbWithDup
        FsState.empty).2.2.2).get? m = some (.rowDelete "dup")) :=
  ⟨((deleteMemory_row_before_files true "dup" "a.mp4" "b.jpg" dbWithDup
      FsState.empty).2.1 rfl).2.1,
   ((deleteMemory_row_before_files false "dup" "a.mp4" "b.jpg" dbWithDup
      FsState.empty).2.2 rfl).2.1,
   (deleteMemory_row_before_files false "dup" "a.mp4" "b.jpg" dbWithDup
      FsState.empty).1 1 "a.mp4" rfl⟩

/-! ## Lemmas about the repository and referential integrity -/

lemma catExists_congr {st st' : DbState} (h : st'.categories = st.categories)
    (c : String) : catExists st' c = catExists st c := by
  simp [catExists, h]

lemma catExists_updateCategory (i : String) (n ic co : Option String)
    (st : DbState) (c : String) :
    catExists (dbUpdateCategory i n ic co st) c = catExists st c := by
  simp only [catExists, dbUpdateCategory, List.any_map]
  congr 1
  funext cat
  by_cases h : cat.id = i <;> simp [h]

lemma catExists_filter_ne {st : DbState} {i c : String} (hne : c ≠ i)
    (h : catExists st c = true) :
    (st.categories.filter (fun cr => cr.id ≠ i)).any
      (fun cr => cr.id = c) = true := by
  rw [catExists, List.any_eq_true] at h
  obtain ⟨cr, hcr, hceq⟩ := h
  rw [List.any_eq_true]
  refine ⟨cr, List.mem_filter.mpr ⟨hcr, ?_⟩, hceq⟩
  simp only [decide_eq_true_eq] at hceq
  simp [hceq, hne]

lemma catRefOk_deleteCategory {i : String} {st st' : DbState}
    (h : CatRefOk st) (hok : dbDeleteCategory i st = .ok st') :
    CatRefOk st' := by
  unfold dbDeleteCategory at hok
  split at hok
  · exact absurd hok (by simp)
  · rename_i hcond
    injection hok with hok
    subst hok
    intro v' hv' c hc
    simp only at hv' hc ⊢
    obtain ⟨v1, hv1, hv1e⟩ := List.mem_map.mp hv'
    obtain ⟨v0, hv0, hv0e⟩ := List.mem_map.mp hv1
    subst hv1e
    by_cases hfi : v1.categoryId = some i
    · simp [hfi] at hc
    · rw [if_neg hfi] at hc
      have hcne : c ≠ i := by
        intro hceq
        subst hceq
        exact hfi hc
      have hcex : catExists st c = true := by
        subst hv0e
        by_cases hgi : v0.categoryId = some i
        · rw [if_pos hgi] at hc hfi
          simp only at hc
          have hcall : c = "all" := by
            injection hc with hc
            exact hc.symm
          subst hcall
          by_contra hnall
          have hany : st.videos.any
              (fun v => v.categoryId = some i) = true := by
            rw [List.any_eq_true]
            exact ⟨v0, hv0, by simp [hgi]⟩
          exact hcond ⟨hany, by
            simp only [Bool.not_eq_true] at hnall ⊢
            simp [hnall]⟩
        · rw [if_neg hgi] at hc
          exact h v0 hv0 c hc
      show (st.categories.filter (fun cr => cr.id ≠ i)).any
        (fun cr => cr.id = c) = true
      exact catExists_filter_ne hcne hcex

lemma catRefOk_addVideo {fresh : String} {v : VideoRow} {st : DbState}
    {rid : String} {st' : DbState} (h : CatRefOk st)
    (hok : dbAddVideo fresh v st = .ok (rid, st')) : CatRefOk st' := by
  have aux : ∀ idu : String,
      ((if videoIdExists st idu = true then
          (.error .pkViolation : Except DbErr (String × DbState))
        else if (!catExists st (v.categoryId.getD "all")) = true then
          .error .fkViolation
        else .ok (idu,
          { st with videos :=
              { v with
                id := idu
                categoryId := some (v.categoryId.getD "all") } ::
                st.videos })) = .ok (rid, st')) → CatRefOk st' := by
    intro idu hok2
    split at hok2
    · exact absurd hok2 (by simp)
    · split at hok2
      · exact absurd hok2 (by simp)
      · rename_i hcat
        injection hok2 with hok2
        have hst' : ({ st with videos :=
            { v with
              id := idu
              categoryId := some (v.categoryId.getD "all") } ::
              st.videos } : DbState) = st' := congrArg Prod.snd hok2
        subst hst'
        intro v' hv' c hc
        simp only [List.mem_cons] at hv'
        rcases hv' with hv' | hv'
        · subst hv'
          simp only at hc
          injection hc with hc
          subst hc
          have hcat' : catExists st (v.categoryId.getD "all") = true := by
            simpa using hcat
          simpa [catExists] using hcat'
        · exact h v' hv' c hc
  by_cases hvid : videoIdExists st v.id = true
  · simp only [dbAddVideo, hvid, if_true] at hok
    exact aux fresh hok
  · simp only [Bool.not_eq_true] at hvid
    simp only [dbAddVideo, hvid] at hok
    exact aux v.id (by simpa using hok)

lemma catRefOk_updateVideo {i : String} {u : VideoUpdate} {st st' : DbState}
    (h : CatRefOk st) (hok : dbUpdateVideo i u st = .ok st') :
    CatRefOk st' := by
  unfold dbUpdateVideo at hok
  have hmain : ∀ (hvids : st'.videos = st.videos.map
      (fun v => if v.id = i then applyVideoUpdate u v else v))
      (hcats : st'.categories = st.categories)
      (hcatok : ∀ v0 ∈ st.videos, v0.id = i →
        ∀ c, (applyVideoUpdate u v0).categoryId = some c →
          catExists st c = true), CatRefOk st' := by
    intro hvids hcats hcatok v' hv' c hc
    rw [hvids] at hv'
    rw [catExists_congr hcats]
    obtain ⟨v0, hv0, hv0e⟩ := List.mem_map.mp hv'
    subst hv0e
    by_cases hid : v0.id = i
    · rw [if_pos hid] at hc
      exact hcatok v0 hv0 hid c hc
    · rw [if_neg hid] at hc
      exact h v0 hv0 c hc
  cases hu : u.categoryId with
  | none =>
    simp only [hu] at hok
    injection hok with hok
    subst hok
    refine hmain rfl rfl ?_
    intro v0 hv0 _ c hc
    simp only [applyVideoUpdate, hu, Option.getD] at hc
    exact h v0 hv0 c hc
  | some oc =>
    cases oc with
    | none =>
      simp only [hu] at hok
      injection hok with hok
      subst hok
      refine hmain rfl rfl ?_
      intro v0 _ _ c hc
      simp [applyVideoUpdate, hu] at hc
    | some cnew =>
      simp only [hu] at hok
      split at hok
      · exact absurd hok (by simp)
      · rename_i hguard
        injection hok with hok
        subst hok
        refine hmain rfl rfl ?_
        intro v0 hv0 hid c hc
        have hcc : c = cnew := by
          simp only [applyVideoUpdate, hu] at hc
          injection hc with hc
          exact hc.symm
        subst hcc
        by_contra hnc
        refine hguard ⟨?_, ?_⟩
        · rw [videoIdExists, List.any_eq_true]
          exact ⟨v0, hv0, by simp [hid]⟩
        · simp only [Bool.not_eq_true] at hnc ⊢
          simp [hnc]

lemma catRefOk_applyOp {op : RepOp} {st st' : DbState}
    (h : CatRefOk st) (hok : applyOp op st = .ok st') : CatRefOk st' := by
  cases op with
  | addCategory c =>
    simp only [applyOp, dbAddCategory] at hok
    split at hok
    · exact absurd hok (by simp)
    · injection hok with hok
      subst hok
      intro v hv d hd
      have := h v hv d hd
      simpa [catExists, List.any_cons] using Or.inr (by simpa [catExists] using this)
  | updateCategory i n ic co =>
    simp only [applyOp] at hok
    injection hok with hok
    subst hok
    intro v hv d hd
    rw [catExists_updateCategory]
    exact h v hv d hd
  | deleteCategory i => exact catRefOk_deleteCategory h hok
  | addVideo fresh v =>
    simp only [applyOp, Except.map] at hok
    cases hadd : dbAddVideo fresh v st with
    | error e => rw [hadd] at hok; exact absurd hok (by simp)
    | ok p =>
      rw [hadd] at hok
      injection hok with hok
      subst hok
      exact catRefOk_addVideo h (by rw [hadd])
  | updateVideo i u => exact catRefOk_updateVideo h hok
  | deleteVideo i =>
    simp only [applyOp] at hok
    injection hok with hok
    subst hok
    intro v hv d hd
    have hv' : v ∈ st.videos := (List.mem_filter.mp hv).1
    exact h v hv' d hd
  | addCoreMemory m =>
    simp only [applyOp, dbAddCoreMemory] at hok
    split at hok
    · exact absurd hok (by simp)
    · injection hok with hok
      subst hok
      intro v hv d hd
      exact h v hv d hd
  | deleteCoreMemory i =>
    simp only [applyOp] at hok
    injection hok with hok
    subst hok
    intro v hv d hd
    exact h v hv d hd

lemma catRefOk_stepOp (op : RepOp) (st : DbState) (h : CatRefOk st) :
    CatRefOk (stepOp st op) := by
  cases hap : applyOp op st with
  | error e => simpa [stepOp, hap] using h
  | ok st' =>
    have := catRefOk_applyOp h hap
    simpa [stepOp, hap] using this

lemma catRefOk_runOps (ops : List RepOp) (st : DbState) (h : CatRefOk st) :
    CatRefOk (runOps ops st) := by
  induction ops generalizing st with
  | nil => simpa [runOps] using h
  | cons op rest ih =>
    have h1 := catRefOk_stepOp op st h
    simpa [runOps, List.foldl_cons] using ih (stepOp st op) h1

/-! ## C5: category deletion and referential integrity -/

/-- Claim C5 (confirmed). Deleting a category other than the sentinel reassigns, inside the
one transaction, every video filed under it to the sentinel `"all"` before
the category row is deleted (the resulting rows are exactly the reassigned
ones, and no category row with the deleted id survives); the seeded initial
state satisfies referential integrity of `videos.categoryId`, and every
sequence of repository operations preserves it — no video ever references a
category row that does not exist. -/
theorem deleteCategory_reassign_and_integrity :
    (∀ (c : String) (st st' : DbState), c ≠ "all" →
      dbDeleteCategory c st = .ok st' →
      (∀ cat ∈ st'.categories, cat.id ≠ c) ∧
      st'.videos = st.videos.map (fun v =>
        if v.categoryId = some c then { v with categoryId := some "all" }
        else v)) ∧
    CatRefOk initialDbState ∧
    (∀ (ops : List RepOp) (st : DbState), CatRefOk st →
      CatRefOk (runOps ops st)) := by
  refine ⟨?_, ?_, catRefOk_runOps⟩
  · intro c st st' hc hok
    unfold dbDeleteCategory at hok
    split at hok
    · exact absurd hok (by simp)
    · injection hok with hok
      subst hok
      constructor
      · intro cat hcat
        simp only at hcat
        have := (List.mem_filter.mp hcat).2
        simpa using this
      · simp only
        rw [List.map_map]
        refine List.map_congr_left ?_
        intro v _
        have hne : (some "all" : Option String) ≠ some c := by
          intro heq
          injection heq with heq
          exact hc heq.symm
        by_cases hvc : v.categoryId = some c
        · simp [Function.comp, hvc, hne]
        · simp [Function.comp, hvc]
  · intro v hv
    simp [initialDbState] at hv

/-- Witness for C5: deleting the non-sentinel `"pets"` category from a
concrete state reassigns its video to `"all"` and drops the row, and a
concrete operation sequence on the seeded store keeps referential
integrity. -/
theorem deleteCategory_integrity_witness :
    ("pets" : String) ≠ "all" ∧
    ((∀ cat ∈ stPetsAfter.categories, cat.id ≠ "pets") ∧
      stPetsAfter.videos = stPets.videos.map (fun v =>
        if v.categoryId = some "pets" then { v with categoryId := some "all" }
        else v)) ∧
    CatRefOk initialDbState ∧
    CatRefOk (runOps witnessOps initialDbState) :=
  ⟨by decide,
   deleteCategory_reassign_and_integrity.1 "pets" stPets stPetsAfter
     (by decide) rfl,
   deleteCategory_reassign_and_integrity.2.1,
   deleteCategory_reassign_and_integrity.2.2 witnessOps initialDbState
     deleteCategory_reassign_and_integrity.2.1⟩

/-! ## C6: deleting the sentinel category -/

/-- Claim C6, counterexample. Invoking the repository category deletion with
the sentinel id `"all"` is *not* rejected: on the freshly seeded store the
call succeeds and removes the sentinel category row. -/
theorem deleteCategory_sentinel_not_rejected :
    dbDeleteCategory "all" initialDbState =
      .ok ⟨seededCategories.filter (fun c => c.id ≠ "all"), [], []⟩ ∧
    catExists ⟨seededCategories.filter (fun c => c.id ≠ "all"), [], []⟩ "all" =
      false :=
  ⟨rfl, by decide⟩

/-- Claim C6 as amended. The sentinel guard lives only in the UI layer: the
settings screen function `handleDeleteCategory` returns before any repository call
when the id is `"all"`, leaving the store unchanged and opening no
transaction; the repository function `deleteCategory` itself has no sentinel check
and, invoked directly with `"all"`, runs its transaction and deletes the
sentinel row. -/
theorem categoryDeletion_sentinel_guard_ui_only :
    (∀ st : DbState, handleDeleteCategory "all" st = (st, false)) ∧
    (∃ st', dbDeleteCategory "all" initialDbState = .ok st' ∧
      catExists st' "all" = false) :=
  ⟨fun _ => rfl,
   ⟨⟨seededCategories.filter (fun c => c.id ≠ "all"), [], []⟩, rfl, by decide⟩⟩

/-! ## C7: lock-retry coverage -/

/-- Claim C7, counterexample. It is not the case that every mutating repository
statement failing on a locked store is retried: a statement run (e.g.
`deleteVideo`) whose store is locked on the first attempt and free on the
second still surfaces the lock error — the CRUD mutators execute their
statement exactly once. -/
theorem mutating_statements_not_retried_on_lock :
    ¬ (∀ oracle : Nat → Option ExecErr,
        oracle 0 = some .locked → oracle 1 = none →
        (mutatingStatementRun oracle).1 = .ok ()) := by
  intro h
  have h2 := h lockedOnce rfl rfl
  simp [mutatingStatementRun, lockedOnce] at h2

/-- Claim C7 as amended. Only the schema-initialization step inside `setup()`
is wrapped in the lock-retry helper `retryOperation` (3 attempts, 1 s
delay): under a lock that clears on the second attempt it succeeds after 2
attempts, and under a permanent lock it surfaces the lock error after
exactly 3 attempts; a mutating CRUD statement is executed once and surfaces
the lock error on its single attempt. -/
theorem retry_on_lock_only_schema_step (oracle : Nat → Option ExecErr)
    (h0 : oracle 0 = some .locked) (h1 : oracle 1 = none) :
    setupSchemaStep oracle = (.ok (), 2) ∧
    mutatingStatementRun oracle = (.error .locked, 1) ∧
    setupSchemaStep allLocked = (.error .locked, 3) := by
  refine ⟨?_, ?_, rfl⟩
  · simp [setupSchemaStep, retryOperation, h0, h1]
  · simp [mutatingStatementRun, h0]

/-- Witness for the amended C7 at the concrete locked-once oracle. -/
theorem retry_on_lock_witness :
    lockedOnce 0 = some .locked ∧ lockedOnce 1 = none ∧
    (setupSchemaStep lockedOnce = (.ok (), 2) ∧
      mutatingStatementRun lockedOnce = (.error .locked, 1) ∧
      setupSchemaStep allLocked = (.error .locked, 3)) :=
  ⟨rfl, rfl, retry_on_lock_only_schema_step lockedOnce rfl rfl⟩

/-! ## C9: id-collision policy of addVideo -/

/-- Claim C9 (confirmed). Adding a video whose id already exists silently mints a fresh id
for the inserted row (provided the minted uuid is itself unused): the call
succeeds, every pre-existing row — in particular the one carrying the
supplied id — is left unchanged, the returned id is the id of the newly
inserted row, and it equals the supplied id exactly when no collision
occurred. -/
theorem addVideo_collision_mints_fresh_id (fresh : String) (v : VideoRow)
    (st : DbState)
    (hfresh : videoIdExists st fresh = false)
    (hcat : catExists st (v.categoryId.getD "all") = true) :
    ∃ rid st', dbAddVideo fresh v st = .ok (rid, st') ∧
      st'.videos =
        { v with
          id := rid
          categoryId := some (v.categoryId.getD "all") } :: st.videos ∧
      (rid = v.id ↔ videoIdExists st v.id = false) := by
  by_cases hex : videoIdExists st v.id = true
  · have h1 : dbAddVideo fresh v st = .ok (fresh,
        { st with videos :=
            { v with
              id := fresh
              categoryId := some (v.categoryId.getD "all") } :: st.videos }) := by
      simp [dbAddVideo, hex, hfresh, hcat]
    refine ⟨fresh, _, h1, rfl, ?_⟩
    constructor
    · intro heq
      rw [heq] at hfresh
      rw [hfresh] at hex
      exact absurd hex (by simp)
    · intro hno
      rw [hno] at hex
      exact absurd hex (by simp)
  · have hex' : videoIdExists st v.id = false := by
      simpa using hex
    have h1 : dbAddVideo fresh v st = .ok (v.id,
        { st with videos :=
            { v with
              id := v.id
              categoryId := some (v.categoryId.getD "all") } :: st.videos }) := by
      simp [dbAddVideo, hex', hcat]
    exact ⟨v.id, _, h1, rfl, by simp [hex']⟩

/-- Witness for C9: inserting a row under the already-taken id `"dup"`
succeeds under the fresh uuid `"fresh-1"`, keeps the old row, and the
returned id differs from the supplied one because a collision occurred. -/
theorem addVideo_collision_witness :
    videoIdExists dbWithDup "fresh-1" = false ∧
    catExists dbWithDup (collidingRow.categoryId.getD "all") = true ∧
    (∃ rid st', dbAddVideo "fresh-1" collidingRow dbWithDup = .ok (rid, st') ∧
      st'.videos =
        { collidingRow with
          id := rid
          categoryId := some (collidingRow.categoryId.getD "all") } ::
            dbWithDup.videos ∧
      (rid = collidingRow.id ↔
        videoIdExists dbWithDup collidingRow.id = false)) :=
  ⟨by decide, by decide,
   addVideo_collision_mints_fresh_id "fresh-1" collidingRow dbWithDup
     (by decide) (by decide)⟩

end VideoDiary
